import Mathlib

/-!
Shallow embedding of `node-gtoken` (`src/index.ts`): the `GoogleToken` agent
managing a service-account OAuth2 token via the JWT-bearer grant.

External collaborators (HTTP transport, JWS signing, file reads, JSON.parse,
the PKCS#12 converter) are modelled as oracles passed in as arguments; the
state transitions and control flow of the agent itself are translated from the
TypeScript source.  JavaScript machine-level details that matter are kept:
truthiness (`""` and `0` are falsy, objects are truthy), `||` returning its
second operand when the first is falsy, `??` treating `0` as present, and
`Object.assign` letting the later source object win on key collisions.
Epoch times are modelled as `Nat` milliseconds (resp. seconds).
-/

/-- The raw exchange response (interface `TokenData` in the source). -/
structure TokenData where
  refresh_token : Option String := none
  expires_in : Option Nat := none
  access_token : Option String := none
  token_type : Option String := none
  id_token : Option String := none
deriving DecidableEq, Inhabited, Repr

/-- A JavaScript value appearing in a JWT claim set. -/
inductive JsVal where
  | str (s : String)
  | num (n : Nat)
  | undefined
deriving DecidableEq, Repr

/-- Output of `getCredentials` (interface `Credentials`). -/
structure Credentials where
  privateKey : String
  clientEmail : Option String := none
deriving DecidableEq, Repr

/-- The parsed body of a `.json` key file, as far as `getCredentials` reads it. -/
structure JsonKeyBody where
  private_key : Option String := none
  client_email : Option String := none
deriving DecidableEq, Repr

/-- Oracle for the external file system, JSON parser and PKCS#12 converter:
`content` is the `readFile(..., utf8)` result, `parsed` the result of
`JSON.parse` on it (`none` models a parse exception), `pem` the string the
lazily-loaded `getPem` converter would return. -/
structure FileOracle where
  content : String := ""
  parsed : Option JsonKeyBody := none
  pem : String := ""
deriving DecidableEq, Repr

/-- Structured error body of a failed exchange response (`e.response.data`). -/
structure ErrorBody where
  error : Option String := none
  error_description : Option String := none
deriving DecidableEq, Repr

/-- A transport error as thrown by the request primitive (`GaxiosError`):
a message plus the optional structured response body. -/
structure GaxiosErr where
  message : String := ""
  body : Option ErrorBody := none
deriving DecidableEq, Repr

/-- A thrown JavaScript error: plain `Error`, `ErrorWithCode` (message, code),
or a transport error (possibly with a rewritten message). -/
inductive JsError where
  | plain (message : String)
  | withCode (message : String) (code : String)
  | gaxios (e : GaxiosErr)
deriving DecidableEq, Repr

/-- The mutable fields of the `GoogleToken` class. -/
structure GoogleToken where
  expiresAt : Option Nat := none
  key : Option String := none
  keyFile : Option String := none
  iss : Option String := none
  sub : Option String := none
  scope : Option String := none
  rawToken : Option TokenData := none
  tokenExpires : Option Nat := none
  email : Option String := none
  additionalClaims : Option (List (String × JsVal)) := none
  eagerRefreshThresholdMillis : Option Nat := none
deriving DecidableEq, Inhabited, Repr

/-- Constructor argument (`TokenOptions`); `scope` is `string | string[]`. -/
structure TokenOptions where
  keyFile : Option String := none
  key : Option String := none
  email : Option String := none
  iss : Option String := none
  sub : Option String := none
  scope : Option (String ⊕ List String) := none
  additionalClaims : Option (List (String × JsVal)) := none
  eagerRefreshThresholdMillis : Option Nat := none
deriving DecidableEq, Repr

/-- JavaScript truthiness of an optional string: `undefined` and `""` are falsy. -/
def truthyStr : Option String → Bool
  | some s => s ≠ ""
  | none => false

/-- JavaScript truthiness of an optional number: `undefined` and `0` are falsy. -/
def truthyNat : Option Nat → Bool
  | some n => n ≠ 0
  | none => false

/-- JavaScript `a || b` on optional strings: `b` when `a` is falsy. -/
def jsOr (a b : Option String) : Option String :=
  if truthyStr a then a else b

def GOOGLE_TOKEN_URL : String := "https://www.googleapis.com/oauth2/v4/token"

def GOOGLE_REVOKE_TOKEN_URL : String :=
  "https://accounts.google.com/o/oauth2/revoke?token="

namespace GoogleToken

/-- Getter `accessToken`: `this.rawToken ? this.rawToken.access_token : undefined`. -/
def accessToken (g : GoogleToken) : Option String :=
  match g.rawToken with
  | some t => t.access_token
  | none => none

/-- Method `hasExpired()`: the guard `this.rawToken && this.expiresAt` is a truthiness
test, so a missing record, a missing `expiresAt`, or `expiresAt = 0` all land
in the `else` branch returning `true`; otherwise `now >= this.expiresAt`. -/
def hasExpired (g : GoogleToken) (now : Nat) : Bool :=
  match g.rawToken, g.expiresAt with
  | some _, some e => if e = 0 then true else decide (now ≥ e)
  | _, _ => true

/-- Method `isTokenExpiring()`: `eagerRefreshThresholdMillis ?? 0` (nullish, so a
configured `0` stays `0`), same truthiness guard as `hasExpired`, otherwise
`this.expiresAt <= now + eagerRefreshThresholdMillis`. -/
def isTokenExpiring (g : GoogleToken) (now : Nat) : Bool :=
  let t := g.eagerRefreshThresholdMillis.getD 0
  match g.rawToken, g.expiresAt with
  | some _, some e => if e = 0 then true else decide (e ≤ now + t)
  | _, _ => true

end GoogleToken

/-- The last `/`-separated segment of a path (the basename), accumulator
style over the character list. -/
def lastSegAux : List Char → List Char → List Char
  | [], acc => acc.reverse
  | c :: cs, acc => if c = '/' then lastSegAux cs [] else lastSegAux cs (c :: acc)

/-- Node's `path.extname`: the extension of the last path segment, from its
last `.` to the end; empty when the segment has no dot or only a leading dot
(and for the special segment `..`). -/
def extname (p : String) : String :=
  let b := lastSegAux p.data []
  if b = ['.', '.'] then ""
  else
    let revb := b.reverse
    let pre := revb.takeWhile (fun c => c ≠ '.')
    match revb.drop pre.length with
    | [] => ""
    | _ :: before => if before = [] then "" else String.mk ('.' :: pre.reverse)

namespace GoogleToken

/-- Method `getCredentials(keyFile)`: dispatch on `path.extname`.  `.json` parses the
file and requires truthy `private_key` and `client_email`; `.der`/`.crt`/`.pem`
return the whole file content as the key; `.p12`/`.pfx` delegate to the
external converter; anything else throws `UNKNOWN_CERTIFICATE_TYPE`.  The
message of a `JSON.parse` exception is external; it is modelled as a fixed
plain error. -/
def getCredentials (keyFile : String) (fs : FileOracle) :
    Except JsError Credentials :=
  let ext := extname keyFile
  if ext = ".json" then
    match fs.parsed with
    | none => .error (.plain "JSON.parse exception")
    | some body =>
      match body.private_key, body.client_email with
      | some pk, some ce =>
        if pk = "" ∨ ce = "" then
          .error (.withCode "private_key and client_email are required."
            "MISSING_CREDENTIALS")
        else .ok { privateKey := pk, clientEmail := some ce }
      | _, _ =>
        .error (.withCode "private_key and client_email are required."
          "MISSING_CREDENTIALS")
  else if ext = ".der" ∨ ext = ".crt" ∨ ext = ".pem" then
    .ok { privateKey := fs.content }
  else if ext = ".p12" ∨ ext = ".pfx" then
    .ok { privateKey := fs.pem }
  else
    .error (.withCode
      "Unknown certificate type. Type is determined based on file extension. Current supported extensions are *.json, *.pem, and *.p12."
      "UNKNOWN_CERTIFICATE_TYPE")

/-- Lookup in a claim set (a JavaScript object literal as an assoc list). -/
def lookupClaim : List (String × JsVal) → String → Option JsVal
  | [], _ => none
  | (k, v) :: rest, key => if k = key then some v else lookupClaim rest key

/-- JavaScript `Object.assign(target, source)` viewed as a lookup: a key of `source`
overrides the same key of `target`. -/
def objAssign (target source : List (String × JsVal)) (k : String) :
    Option JsVal :=
  match lookupClaim source k with
  | some v => some v
  | none => lookupClaim target k

/-- An optional string as a JS object-property value (`undefined` if absent). -/
def jsOfOptStr : Option String → JsVal
  | some s => .str s
  | none => .undefined

/-- The fixed part of the assertion payload built in `requestToken`, with
`iat` the epoch-second timestamp taken at assertion-construction time. -/
def fixedClaims (g : GoogleToken) (iat : Nat) : List (String × JsVal) :=
  [("iss", jsOfOptStr g.iss),
   ("scope", jsOfOptStr g.scope),
   ("aud", .str GOOGLE_TOKEN_URL),
   ("exp", .num (iat + 3600)),
   ("iat", .num iat),
   ("sub", jsOfOptStr g.sub)]

/-- The signed assertion payload:
`Object.assign({iss, scope, aud, exp, iat, sub}, additionalClaims)`
(`this.additionalClaims || {}`), so additional claims are the later source
object of `Object.assign`. -/
def assertionPayload (g : GoogleToken) (iat : Nat) : String → Option JsVal :=
  objAssign (fixedClaims g iat) (g.additionalClaims.getD [])

/-- Method `requestToken()`, with the transport response as an oracle.  `iat` is the
epoch-second timestamp read at the top of the function; the same value feeds
the payload (`assertionPayload g iat`) and the expiry computation.  On
success: store the record; `expiresAt` becomes `(iat + expires_in) * 1000`, or
`undefined` when the response has no `expires_in` (`=== null || undefined`, so
an `expires_in` of `0` still yields an `expiresAt`).  On failure: set
`rawToken` and `tokenExpires` to `undefined` (note: not `expiresAt`), rewrite
the error message from a truthy structured `error` body field, and rethrow. -/
def requestToken (g : GoogleToken) (iat : Nat)
    (response : Except GaxiosErr TokenData) :
    GoogleToken × Except JsError TokenData :=
  match response with
  | .ok d =>
    let g' := { g with
      rawToken := some d
      expiresAt :=
        match d.expires_in with
        | none => none
        | some n => some ((iat + n) * 1000) }
    (g', .ok d)
  | .error e =>
    let g' := { g with rawToken := none, tokenExpires := none }
    let body := e.body.getD {}
    let msg :=
      match body.error with
      | some err =>
        if err = "" then e.message
        else
          match body.error_description with
          | some dsc => if dsc = "" then err else err ++ ": " ++ dsc
          | none => err
      | none => e.message
    (g', .error (.gaxios { e with message := msg }))

end GoogleToken

/-- Side effects performed by one `getTokenAsyncInner` call: how many network
requests were issued, assertions signed, and credential files loaded. -/
structure Effects where
  networkCalls : Nat := 0
  signings : Nat := 0
  fileLoads : Nat := 0
deriving DecidableEq, Repr

namespace GoogleToken

/-- Method `getTokenAsyncInner(opts)`.  Returns the new agent state, the result, and
the effects performed.  The cached-return branch uses the non-null assertion
`this.rawToken!`, modelled by `getD default` (the branch condition guarantees
the record exists).  Truthiness: `!this.key` is true for an unset or empty
key, likewise `!this.keyFile`; `creds.clientEmail || this.iss` keeps the old
`iss` when the loaded email is falsy, in which case `ensureEmail` throws
`MISSING_CREDENTIALS` unless `this.iss` is truthy. -/
def getTokenAsyncInner (g : GoogleToken) (forceRefresh : Bool) (now : Nat)
    (fs : FileOracle) (iat : Nat) (response : Except GaxiosErr TokenData) :
    GoogleToken × Except JsError TokenData × Effects :=
  if isTokenExpiring g now = false ∧ forceRefresh = false then
    (g, .ok (g.rawToken.getD default), {})
  else if truthyStr g.key = false ∧ truthyStr g.keyFile = false then
    (g, .error (.plain "No key or keyFile set."), {})
  else if truthyStr g.key = false ∧ truthyStr g.keyFile = true then
    match getCredentials (g.keyFile.getD "") fs with
    | .error e => (g, .error e, { fileLoads := 1 })
    | .ok creds =>
      let g1 := { g with
        key := some creds.privateKey
        iss := jsOr creds.clientEmail g.iss }
      if truthyStr creds.clientEmail = false ∧ truthyStr g1.iss = false then
        (g1, .error (.withCode "email is required." "MISSING_CREDENTIALS"),
          { fileLoads := 1 })
      else
        let out := requestToken g1 iat response
        (out.1, out.2, { networkCalls := 1, signings := 1, fileLoads := 1 })
  else
    let out := requestToken g iat response
    (out.1, out.2, { networkCalls := 1, signings := 1 })

/-- Method `configure(options)`: overwrites every configurable field.  `iss` becomes
`options.email || options.iss`; a `string[]` scope is joined with single
spaces; `rawToken` is reset; `expiresAt`, `tokenExpires` and the dead `email`
field are not touched; `eagerRefreshThresholdMillis` is overwritten
unconditionally. -/
def configure (g : GoogleToken) (o : TokenOptions) : GoogleToken :=
  { g with
    keyFile := o.keyFile
    key := o.key
    rawToken := none
    iss := jsOr o.email o.iss
    sub := o.sub
    additionalClaims := o.additionalClaims
    scope :=
      match o.scope with
      | some (.inr l) => some (String.intercalate " " l)
      | some (.inl s) => some s
      | none => none
    eagerRefreshThresholdMillis := o.eagerRefreshThresholdMillis }

/-- Method `revokeTokenAsync()`.  `netOk` is the oracle for the revocation request.
`!this.accessToken` uses truthiness, so an empty-string token also throws
`No token to revoke.`.  On transport failure the error propagates with the
state unchanged; on success the agent is reconfigured from its current
`iss`/`sub`/`key`/`keyFile`/`scope`/`additionalClaims` (passing no
`eagerRefreshThresholdMillis`). -/
def revokeTokenAsync (g : GoogleToken) (netOk : Bool) :
    GoogleToken × Except JsError Unit :=
  if truthyStr (accessToken g) = false then
    (g, .error (.plain "No token to revoke."))
  else if netOk then
    (configure g
      { email := g.iss
        sub := g.sub
        key := g.key
        keyFile := g.keyFile
        scope := g.scope.map .inl
        additionalClaims := g.additionalClaims },
      .ok ())
  else
    (g, .error (.plain "revocation request failed"))

end GoogleToken

/-!
Cooperative-concurrency model of `getTokenAsync` (the single-flight
coordinator).  JavaScript is single-threaded: each `getToken` call runs its
synchronous prefix atomically and suspends only at `await`.  For a caller with
`forceRefresh = false` the prefix is: if `this.inFlightRequest` is set, return
that pending promise (the caller joins it); otherwise run
`getTokenAsyncInner` synchronously — for an agent with a directly-set key and
an expiring/absent token this reaches `requestToken`, issues the POST, stores
the promise in `this.inFlightRequest` and suspends awaiting the network.  When
the response is delivered the leader resumes, stores the record, clears
`inFlightRequest` and resolves its promise; joined callers then resolve with
the same value.  "N concurrent calls" is modelled by a `delivered` flag:
every call's synchronous prefix runs before the network response arrives
(that is what concurrent means here — the calls are issued while the exchange
is still in flight), so `run`/`join` steps require `delivered = false`.
-/

/-- Execution state of one concurrent `getToken(forceRefresh=false)` caller:
not yet run, leader of the in-flight exchange, joined to the leader's pending
promise, or completed with a record. -/
inductive TaskState (n : Nat) where
  | ready
  | leader
  | joined (l : Fin n)
  | done (t : TokenData)
deriving DecidableEq, Repr

/-- Global state of an agent plus `n` concurrent callers: the agent fields,
the `inFlightRequest` slot (identified by the leader task that created it),
whether the network response has been delivered, how many network calls have
been issued, and each task's state. -/
structure SFState (n : Nat) where
  agent : GoogleToken
  inFlight : Option (Fin n)
  delivered : Bool
  netCalls : Nat
  tasks : Fin n → TaskState n

/-- Point update of a task table. -/
def updTask {n : Nat} (f : Fin n → TaskState n) (i : Fin n) (v : TaskState n) :
    Fin n → TaskState n :=
  fun j => if j = i then v else f j

/-- Initial state: no in-flight request, no response delivered, no network
call issued, every caller about to run. -/
def initSF (n : Nat) (g0 : GoogleToken) : SFState n :=
  { agent := g0
    inFlight := none
    delivered := false
    netCalls := 0
    tasks := fun _ => .ready }

/-- Reachable states of the single-flight machine, under any interleaving of
the `n` callers (all with `forceRefresh = false`), for an exchange that the
server answers with record `r`.
`runCached`: a caller finds no in-flight request and a non-expiring cached
token and returns `this.rawToken!` at once.
`runLead`: a caller finds no in-flight request, an expiring/absent token and a
truthy key, so its `getTokenAsyncInner` reaches `requestToken`: it issues the
network call, becomes the in-flight request, and suspends.
`join`: a caller finds `this.inFlightRequest` set and returns it.
`deliver`: the network response reaches the leader, which applies
`requestToken`'s success path to the agent, resolves, and clears the slot (the
`finally`).
`resolve`: a joined caller resumes with the value of the promise it awaited. -/
inductive SFReach (g0 : GoogleToken) (now iat : Nat) (r : TokenData) :
    {n : Nat} → SFState n → Prop where
  | init (n : Nat) : SFReach g0 now iat r (initSF n g0)
  | runCached {n : Nat} (s : SFState n) (i : Fin n) (h : SFReach g0 now iat r s)
      (hr : s.tasks i = .ready) (hd : s.delivered = false)
      (hf : s.inFlight = none)
      (he : GoogleToken.isTokenExpiring s.agent now = false) :
      SFReach g0 now iat r
        { s with tasks := updTask s.tasks i (.done (s.agent.rawToken.getD default)) }
  | runLead {n : Nat} (s : SFState n) (i : Fin n) (h : SFReach g0 now iat r s)
      (hr : s.tasks i = .ready) (hd : s.delivered = false)
      (hf : s.inFlight = none)
      (he : GoogleToken.isTokenExpiring s.agent now = true)
      (hk : truthyStr s.agent.key = true) :
      SFReach g0 now iat r
        { s with tasks := updTask s.tasks i .leader
                 inFlight := some i
                 netCalls := s.netCalls + 1 }
  | join {n : Nat} (s : SFState n) (i l : Fin n) (h : SFReach g0 now iat r s)
      (hr : s.tasks i = .ready) (hd : s.delivered = false)
      (hf : s.inFlight = some l) :
      SFReach g0 now iat r { s with tasks := updTask s.tasks i (.joined l) }
  | deliver {n : Nat} (s : SFState n) (l : Fin n) (h : SFReach g0 now iat r s)
      (hf : s.inFlight = some l) (hl : s.tasks l = .leader) :
      SFReach g0 now iat r
        { s with agent := (GoogleToken.requestToken s.agent iat (.ok r)).1
                 tasks := updTask s.tasks l (.done r)
                 inFlight := none
                 delivered := true }
  | resolve {n : Nat} (s : SFState n) (i l : Fin n) (t : TokenData)
      (h : SFReach g0 now iat r s)
      (hi : s.tasks i = .joined l) (hl : s.tasks l = .done t) :
      SFReach g0 now iat r { s with tasks := updTask s.tasks i (.done t) }

/-- Inductive invariant of the single-flight machine (for an agent that
starts with no cached record): before anything ran, nothing happened; while
an exchange is in flight there is exactly one leader, one network call was
issued, the agent is untouched and everyone else is ready or joined to the
leader; after delivery exactly one network call was issued and every finished
task holds the delivered record. -/
def SFInv (g0 : GoogleToken) (r : TokenData) {n : Nat} (s : SFState n) : Prop :=
  (s.delivered = false ∧ s.inFlight = none ∧ s.netCalls = 0 ∧ s.agent = g0 ∧
    ∀ i, s.tasks i = .ready)
  ∨ (s.delivered = false ∧ ∃ l, s.inFlight = some l ∧ s.netCalls = 1 ∧
      s.agent = g0 ∧ s.tasks l = .leader ∧
      ∀ i, i ≠ l → s.tasks i = .ready ∨ s.tasks i = .joined l)
  ∨ (s.delivered = true ∧ s.inFlight = none ∧ s.netCalls = 1 ∧
      ∃ l, s.tasks l = .done r ∧
      ∀ i, i ≠ l → s.tasks i = .ready ∨ s.tasks i = .joined l ∨
        s.tasks i = .done r)

/-- Agent used by the single-flight witness run: a directly-set key, nothing
cached. -/
def sfG0 : GoogleToken := { key := some "k" }

/-- Record the server returns in the single-flight witness run. -/
def sfRec : TokenData := { access_token := some "abc", expires_in := some 3600 }

/-- Final state of the single-flight witness run: one caller ran as leader,
the response was delivered. -/
def sfFinal : SFState 1 :=
  { agent := (GoogleToken.requestToken sfG0 0 (.ok sfRec)).1
    inFlight := none
    delivered := true
    netCalls := 1
    tasks := updTask (updTask (fun _ => .ready) 0 .leader) 0 (.done sfRec) }

open GoogleToken

/-- C1: with a stored record and `expiresAt = E` (and `E` a real epoch-milli
time, in particular nonzero... here proved for every `E : Nat`, the `E = 0`
truthiness corner agreeing with the claim since `now ≥ 0` always holds),
`hasExpired` is `now ≥ E` and `isTokenExpiring` is
`E ≤ now + eagerRefreshThresholdMillis` with the threshold defaulting to `0`;
with no record or no `expiresAt`, both return `true`. -/
theorem expiry_queries_correct (g : GoogleToken) (now : Nat) :
    (∀ tok E, g.rawToken = some tok → g.expiresAt = some E →
      ((hasExpired g now = true ↔ now ≥ E) ∧
        (isTokenExpiring g now = true ↔
          E ≤ now + g.eagerRefreshThresholdMillis.getD 0))) ∧
    ((g.rawToken = none ∨ g.expiresAt = none) →
      hasExpired g now = true ∧ isTokenExpiring g now = true) := by
  constructor
  · intro tok E hraw hexp
    rw [hasExpired, isTokenExpiring, hraw, hexp]
    by_cases hE : E = 0 <;> simp [hE]
  · intro h
    rcases h with h | h
    · rw [hasExpired, isTokenExpiring, h]
      cases g.expiresAt <;> simp
    · rw [hasExpired, isTokenExpiring, h]
      cases g.rawToken <;> simp

/-- Witness for C1 at a concrete agent: record stored, `expiresAt = 5000`,
threshold unset, queried at `now = 5000`. -/
theorem expiry_queries_correct_witness :
    hasExpired { rawToken := some {}, expiresAt := some 5000 } 5000 = true :=
  (((expiry_queries_correct { rawToken := some {}, expiresAt := some 5000 }
      5000).1 {} 5000 rfl rfl).1).mpr (by decide)

/-- C2: a successful exchange with `expires_in = n` stores
`expiresAt = (iat + n) * 1000`, where `iat` is the epoch-second timestamp
`requestToken` reads once and also feeds into the signed assertion payload
(`assertionPayload g iat`); a successful exchange without `expires_in` leaves
`expiresAt` unset. -/
theorem requestToken_success_expiresAt (g : GoogleToken) (iat : Nat)
    (d : TokenData) :
    (∀ n, d.expires_in = some n →
      (requestToken g iat (.ok d)).1.expiresAt = some ((iat + n) * 1000)) ∧
    (d.expires_in = none → (requestToken g iat (.ok d)).1.expiresAt = none) := by
  constructor
  · intro n h
    simp [requestToken, h]
  · intro h
    simp [requestToken, h]

/-- Witness for C2: response with `expires_in = 3600` received for an
assertion built at epoch second `1000` yields `expiresAt = 4600000`. -/
theorem requestToken_success_expiresAt_witness :
    (requestToken {} 1000 (.ok { expires_in := some 3600 })).1.expiresAt
      = some 4600000 :=
  (requestToken_success_expiresAt {} 1000 { expires_in := some 3600 }).1
    3600 rfl

/-- C3: a `getTokenAsyncInner` call with `forceRefresh = false` on an agent
whose token is not expiring returns the cached record with the agent state
unchanged and performs no network request, no signing and no credential-file
load. -/
theorem getTokenAsyncInner_cached (g : GoogleToken) (now : Nat)
    (fs : FileOracle) (iat : Nat) (resp : Except GaxiosErr TokenData)
    (h : isTokenExpiring g now = false) :
    ∃ t, g.rawToken = some t ∧
      getTokenAsyncInner g false now fs iat resp = (g, .ok t, {}) := by
  obtain ⟨t, ht⟩ : ∃ t, g.rawToken = some t := by
    cases hr : g.rawToken
    · rw [isTokenExpiring, hr] at h
      cases g.expiresAt <;> simp at h
    · exact ⟨_, rfl⟩
  refine ⟨t, ht, ?_⟩
  rw [getTokenAsyncInner]
  simp [h, ht]

/-- Witness for C3: an agent with a cached record valid until epoch-milli
`1000000`, queried at `now = 0`, returns the record with zero effects. -/
theorem getTokenAsyncInner_cached_witness :
    getTokenAsyncInner
        { rawToken := some { access_token := some "abc" },
          expiresAt := some 1000000 } false 0 {} 0 (.ok {})
      = ({ rawToken := some { access_token := some "abc" },
           expiresAt := some 1000000 }, .ok { access_token := some "abc" }, {}) := by
  obtain ⟨t, ht, hres⟩ := getTokenAsyncInner_cached
    { rawToken := some { access_token := some "abc" }, expiresAt := some 1000000 }
    0 {} 0 (.ok {}) (by decide)
  cases Option.some.inj ht
  exact hres

/-- C4, counterexample: the payload is
`Object.assign({iss, ...}, additionalClaims)`, and `Object.assign` lets the
later source object win, so an additional claim named `iss` overrides the
fixed `iss` field: with `iss = "good"` and an additional claim
`iss = "evil"`, the signed payload carries `"evil"`, not the fixed field's
value `"good"`. -/
theorem assertionPayload_additional_overrides :
    assertionPayload
        { iss := some "good",
          additionalClaims := some [("iss", .str "evil")] } 0 "iss"
      = some (.str "evil") ∧
    lookupClaim
        (fixedClaims
          { iss := some "good",
            additionalClaims := some [("iss", .str "evil")] } 0) "iss"
      = some (.str "good") ∧
    (JsVal.str "evil" ≠ JsVal.str "good") := by
  refine ⟨?_, ?_, by decide⟩ <;> rfl

/-- C4 amended: the payload contains the fixed fields `iss`, `scope`,
`aud` (the fixed token endpoint), `exp = iat + 3600`, `iat`, `sub` whenever
`additionalClaims` does not name them, and configured additional claims are
merged at HIGHER precedence: a claim whose name collides with a fixed field
overrides that field's value. -/
theorem assertionPayload_fields (g : GoogleToken) (iat : Nat) :
    (∀ k v, lookupClaim (g.additionalClaims.getD []) k = some v →
      assertionPayload g iat k = some v) ∧
    (lookupClaim (g.additionalClaims.getD []) "iss" = none →
      assertionPayload g iat "iss" = some (jsOfOptStr g.iss)) ∧
    (lookupClaim (g.additionalClaims.getD []) "scope" = none →
      assertionPayload g iat "scope" = some (jsOfOptStr g.scope)) ∧
    (lookupClaim (g.additionalClaims.getD []) "aud" = none →
      assertionPayload g iat "aud" = some (.str GOOGLE_TOKEN_URL)) ∧
    (lookupClaim (g.additionalClaims.getD []) "exp" = none →
      assertionPayload g iat "exp" = some (.num (iat + 3600))) ∧
    (lookupClaim (g.additionalClaims.getD []) "iat" = none →
      assertionPayload g iat "iat" = some (.num iat)) ∧
    (lookupClaim (g.additionalClaims.getD []) "sub" = none →
      assertionPayload g iat "sub" = some (jsOfOptStr g.sub)) := by
  refine ⟨?_, ?_, ?_, ?_, ?_, ?_, ?_⟩ <;>
    first
      | (intro k v h
         rw [assertionPayload, objAssign, h])
      | (intro h
         rw [assertionPayload, objAssign, h, fixedClaims]
         simp [lookupClaim])

/-- Witness for C4 amended: with no additional claims configured and
`iss = "me"`, the payload's `iss` is the fixed field. -/
theorem assertionPayload_fields_witness :
    assertionPayload { iss := some "me" } 7 "iss" = some (.str "me") :=
  (assertionPayload_fields { iss := some "me" } 7).2.1 rfl

/-- C5: the failure path of `requestToken` executes
`this.rawToken = undefined; this.tokenExpires = undefined;` — it clears the
dead, never-read `tokenExpires` field instead of `expiresAt`.  Evaluated at
the failing input (an agent holding a record with `expiresAt = 7200000` whose
next exchange fails): the record is cleared but `expiresAt` survives,
contradicting the documented invariant that `expiresAt` is set iff the most
recent exchange succeeded. -/
theorem requestToken_failure_keeps_expiresAt :
    (requestToken
        { rawToken := some { access_token := some "old" },
          expiresAt := some 7200000 } 0 (.error {})).1.rawToken = none ∧
    (requestToken
        { rawToken := some { access_token := some "old" },
          expiresAt := some 7200000 } 0 (.error {})).1.expiresAt
      = some 7200000 := by
  exact ⟨rfl, rfl⟩

/-- C6: `getCredentials` dispatches on `path.extname`: a `.json` file whose
parsed body lacks `private_key` or `client_email` fails with code
`MISSING_CREDENTIALS`; a `.pem`, `.crt` or `.der` file returns the entire
file content as `privateKey` with no `clientEmail`; any extension outside
`.json`/`.pem`/`.crt`/`.der`/`.p12`/`.pfx` fails with code
`UNKNOWN_CERTIFICATE_TYPE`. -/
theorem getCredentials_dispatch (p : String) (fs : FileOracle)
    (body : JsonKeyBody) :
    (extname p = ".json" → fs.parsed = some body →
      (body.private_key = none ∨ body.client_email = none) →
      getCredentials p fs =
        .error (.withCode "private_key and client_email are required."
          "MISSING_CREDENTIALS")) ∧
    ((extname p = ".pem" ∨ extname p = ".crt" ∨ extname p = ".der") →
      getCredentials p fs = .ok { privateKey := fs.content, clientEmail := none }) ∧
    (extname p ∉
        [".json", ".pem", ".crt", ".der", ".p12", ".pfx"] →
      getCredentials p fs =
        .error (.withCode
          "Unknown certificate type. Type is determined based on file extension. Current supported extensions are *.json, *.pem, and *.p12."
          "UNKNOWN_CERTIFICATE_TYPE")) := by
  refine ⟨?_, ?_, ?_⟩
  · intro hext hp hmiss
    rw [getCredentials, hext, hp]
    rcases hmiss with h | h
    · simp [h]
    · cases hpk : body.private_key <;> simp [h, hpk]
  · intro hext
    rcases hext with h | h | h <;> rw [getCredentials, h] <;> simp
  · intro hext
    simp only [List.mem_cons, List.mem_singleton] at hext
    push_neg at hext
    obtain ⟨h1, h2, h3, h4, h5, h6⟩ := hext
    rw [getCredentials]
    simp [h1, h2, h3, h4, h5, h6]

/-- Witness for C6: loading `key.xyz` fails with `UNKNOWN_CERTIFICATE_TYPE`. -/
theorem getCredentials_dispatch_witness :
    getCredentials "key.xyz" {} =
      .error (.withCode
        "Unknown certificate type. Type is determined based on file extension. Current supported extensions are *.json, *.pem, and *.p12."
        "UNKNOWN_CERTIFICATE_TYPE") :=
  (getCredentials_dispatch "key.xyz" {} {}).2.2 (by decide)

/-- C7, counterexample: a successful revoke does NOT clear `expiresAt`
(`configure` never touches it), and an agent whose `iss` is the empty string
loses it (`options.email || options.iss` is falsy for `""`): starting from
`expiresAt = 7000` and `iss = ""`, after a successful revoke `expiresAt` is
still `7000` and `iss` is `undefined`. -/
theorem revokeToken_counterexample :
    (revokeTokenAsync
        { rawToken := some { access_token := some "abc" },
          expiresAt := some 7000, iss := some "" } true).2 = .ok () ∧
    (revokeTokenAsync
        { rawToken := some { access_token := some "abc" },
          expiresAt := some 7000, iss := some "" } true).1.expiresAt
      = some 7000 ∧
    (revokeTokenAsync
        { rawToken := some { access_token := some "abc" },
          expiresAt := some 7000, iss := some "" } true).1.iss = none :=
  ⟨rfl, rfl, rfl⟩

/-- C7 amended: `revokeToken` with no (truthy) access token fails with
`No token to revoke.` leaving the state unchanged; after a successful revoke
`accessToken` is `undefined` and the cached record is cleared, `expiresAt`
retains its previous value (the agent still reports expired because no record
is held), `sub`, `key`, `keyFile`, `scope` and `additionalClaims` retain
their previous values, and `iss` is retained exactly when it was non-empty
(`jsOr g.iss none`). -/
theorem revokeTokenAsync_spec (g : GoogleToken) (netOk : Bool) :
    (truthyStr (accessToken g) = false →
      revokeTokenAsync g netOk = (g, .error (.plain "No token to revoke."))) ∧
    (truthyStr (accessToken g) = true →
      (revokeTokenAsync g true).2 = .ok () ∧
      accessToken (revokeTokenAsync g true).1 = none ∧
      (revokeTokenAsync g true).1.rawToken = none ∧
      (revokeTokenAsync g true).1.expiresAt = g.expiresAt ∧
      (revokeTokenAsync g true).1.iss = jsOr g.iss none ∧
      (revokeTokenAsync g true).1.sub = g.sub ∧
      (revokeTokenAsync g true).1.key = g.key ∧
      (revokeTokenAsync g true).1.keyFile = g.keyFile ∧
      (revokeTokenAsync g true).1.scope = g.scope ∧
      (revokeTokenAsync g true).1.additionalClaims = g.additionalClaims) := by
  constructor
  · intro h
    rw [revokeTokenAsync]
    simp [h]
  · intro h
    have hcond : ¬(truthyStr (accessToken g) = false) := by simp [h]
    rw [revokeTokenAsync, if_neg hcond, if_pos rfl]
    refine ⟨rfl, rfl, rfl, rfl, rfl, rfl, rfl, rfl, ?_, rfl⟩
    show (configure g _).scope = g.scope
    rw [configure]
    cases g.scope <;> rfl

/-- Witness for C7 amended: a fully configured agent after a successful
revoke keeps its key and drops its token. -/
theorem revokeTokenAsync_spec_witness :
    accessToken
        (revokeTokenAsync
          { rawToken := some { access_token := some "abc" },
            expiresAt := some 9, iss := some "me", sub := some "u",
            key := some "k", keyFile := some "f", scope := some "s" }
          true).1 = none ∧
    (revokeTokenAsync
        { rawToken := some { access_token := some "abc" },
          expiresAt := some 9, iss := some "me", sub := some "u",
          key := some "k", keyFile := some "f", scope := some "s" }
        true).1.key = some "k" :=
  ⟨((revokeTokenAsync_spec
      { rawToken := some { access_token := some "abc" },
        expiresAt := some 9, iss := some "me", sub := some "u",
        key := some "k", keyFile := some "f", scope := some "s" }
      true).2 (by decide)).2.1,
   ((revokeTokenAsync_spec
      { rawToken := some { access_token := some "abc" },
        expiresAt := some 9, iss := some "me", sub := some "u",
        key := some "k", keyFile := some "f", scope := some "s" }
      true).2 (by decide)).2.2.2.2.2.2.1⟩

/-- Fact that `requestToken` never changes `iss` (helper for the amended C8). -/
theorem requestToken_preserves_iss (g : GoogleToken) (iat : Nat)
    (resp : Except GaxiosErr TokenData) :
    (requestToken g iat resp).1.iss = g.iss := by
  cases resp <;> simp [requestToken]

/-- C8, counterexample: with `key` set directly and no `email`/`iss`
configured, `getTokenAsyncInner` goes straight to `requestToken` — the
exchange is attempted (one network call) with `iss` absent; no code path
checks the issuer in this configuration. -/
theorem exchange_attempted_without_iss :
    (getTokenAsyncInner { key := some "k" } false 0 {} 0
        (.ok {})).2.2.networkCalls = 1 ∧
    (getTokenAsyncInner { key := some "k" } false 0 {} 0
        (.ok {})).1.iss = none := by
  decide

/-- C8 amended: whenever the key is NOT already set (so the credential-load
path must run), any `getTokenAsyncInner` execution that issues a network call
has a non-empty `iss` at exchange time: a `.json` key file supplies a truthy
`client_email`, otherwise `ensureEmail` aborts unless `iss` was already
truthy.  With `key` set directly, no such guarantee exists (see the
counterexample). -/
theorem iss_truthy_when_key_loaded (g : GoogleToken) (fr : Bool) (now : Nat)
    (fs : FileOracle) (iat : Nat) (resp : Except GaxiosErr TokenData)
    (hk : truthyStr g.key = false) :
    (getTokenAsyncInner g fr now fs iat resp).2.2.networkCalls ≠ 0 →
    truthyStr (getTokenAsyncInner g fr now fs iat resp).1.iss = true := by
  intro hnet
  rw [getTokenAsyncInner] at hnet ⊢
  by_cases h1 : isTokenExpiring g now = false ∧ fr = false
  · simp [h1] at hnet
  · rw [if_neg h1] at hnet ⊢
    by_cases h2 : truthyStr g.key = false ∧ truthyStr g.keyFile = false
    · simp [h2] at hnet
    · rw [if_neg h2] at hnet ⊢
      have h3 : truthyStr g.key = false ∧ truthyStr g.keyFile = true := by
        refine ⟨hk, ?_⟩
        cases hkf : truthyStr g.keyFile
        · exact absurd ⟨hk, hkf⟩ h2
        · rfl
      rw [if_pos h3] at hnet ⊢
      cases hcred : getCredentials (g.keyFile.getD "") fs with
      | error e =>
        rw [hcred] at hnet
        simp at hnet
      | ok creds =>
        rw [hcred] at hnet
        dsimp only at hnet ⊢
        by_cases h4 : truthyStr creds.clientEmail = false ∧
            truthyStr (jsOr creds.clientEmail g.iss) = false
        · rw [if_pos h4] at hnet
          simp at hnet
        · rw [if_neg h4] at hnet ⊢
          rw [requestToken_preserves_iss]
          rcases Decidable.not_and_iff_or_not.mp h4 with h5 | h5
          · have hce : truthyStr creds.clientEmail = true := by
              cases hc : truthyStr creds.clientEmail
              · exact absurd hc h5
              · rfl
            show truthyStr (jsOr creds.clientEmail g.iss) = true
            rw [jsOr, if_pos hce]
            exact hce
          · show truthyStr (jsOr creds.clientEmail g.iss) = true
            cases hc : truthyStr (jsOr creds.clientEmail g.iss)
            · exact absurd hc h5
            · rfl

/-- Witness for C8 amended: a `.json` key file carrying a client email makes
the exchange run with a truthy `iss`. -/
theorem iss_truthy_when_key_loaded_witness :
    truthyStr
      (getTokenAsyncInner { keyFile := some "c.json" } false 0
          { parsed := some { private_key := some "p", client_email := some "e" } }
          0 (.ok {})).1.iss = true :=
  iss_truthy_when_key_loaded { keyFile := some "c.json" } false 0
    { parsed := some { private_key := some "p", client_email := some "e" } }
    0 (.ok {}) rfl (by decide)

/-- C10: a successful `revokeToken` reconfigures through `configure` passing
no `eagerRefreshThresholdMillis`, and `configure` overwrites the field
unconditionally, so the threshold is reset to `undefined` (subsequent expiry
checks fall back to the default `0`). -/
theorem revoke_resets_eagerRefreshThreshold (g : GoogleToken)
    (h : truthyStr (accessToken g) = true) :
    (revokeTokenAsync g true).1.eagerRefreshThresholdMillis = none := by
  rw [revokeTokenAsync]
  simp [h, configure]

/-- Witness for C10: an agent configured with a `60000` ms threshold loses it
on a successful revoke. -/
theorem revoke_resets_eagerRefreshThreshold_witness :
    (revokeTokenAsync
        { rawToken := some { access_token := some "abc" },
          eagerRefreshThresholdMillis := some 60000 }
        true).1.eagerRefreshThresholdMillis = none :=
  revoke_resets_eagerRefreshThreshold
    { rawToken := some { access_token := some "abc" },
      eagerRefreshThresholdMillis := some 60000 } (by decide)

/-- An agent with no stored record always reports an expiring token. -/
theorem isTokenExpiring_of_no_rawToken (g : GoogleToken) (now : Nat)
    (h : g.rawToken = none) : isTokenExpiring g now = true := by
  rw [isTokenExpiring, h]

/-- Evaluation of `updTask` at the updated index. -/
theorem updTask_self {n : Nat} (f : Fin n → TaskState n) (i : Fin n)
    (v : TaskState n) : updTask f i v i = v := by
  simp [updTask]

/-- Evaluation of `updTask` away from the updated index. -/
theorem updTask_other {n : Nat} (f : Fin n → TaskState n) (i j : Fin n)
    (v : TaskState n) (h : j ≠ i) : updTask f i v j = f j := by
  simp [updTask, h]

/-- The single-flight invariant is inductive: it holds in every reachable
state of an agent that starts with no cached record. -/
theorem sfReach_inv (g0 : GoogleToken) (now iat : Nat) (r : TokenData)
    (hraw : g0.rawToken = none) {n : Nat} {s : SFState n}
    (h : SFReach g0 now iat r s) : SFInv g0 r s := by
  induction h with
  | init =>
    exact Or.inl ⟨rfl, rfl, rfl, rfl, fun _ => rfl⟩
  | runCached s i h hr hd hf he ih =>
    rcases ih with ⟨_, _, _, hag, _⟩ | ⟨_, l, hfl, _⟩ | ⟨hdel, _⟩
    · rw [hag, isTokenExpiring_of_no_rawToken g0 now hraw] at he
      simp at he
    · rw [hf] at hfl
      simp at hfl
    · rw [hd] at hdel
      simp at hdel
  | runLead s i h hr hd hf he hk ih =>
    rcases ih with ⟨hdel, _, hnc, hag, htasks⟩ | ⟨_, l, hfl, _⟩ | ⟨hdel, _⟩
    · refine Or.inr (Or.inl ⟨hdel, i, rfl, ?_, hag, ?_, ?_⟩)
      · show s.netCalls + 1 = 1
        rw [hnc]
      · exact updTask_self s.tasks i _
      · intro j hj
        exact Or.inl ((updTask_other s.tasks i j _ hj).trans (htasks j))
    · rw [hf] at hfl
      simp at hfl
    · rw [hd] at hdel
      simp at hdel
  | join s i l h hr hd hf ih =>
    rcases ih with ⟨_, hfl, _⟩ | ⟨hdel, l', hfl', hnc, hag, hlead, hrest⟩ |
        ⟨hdel, _⟩
    · rw [hf] at hfl
      simp at hfl
    · have hll : l = l' := by
        rw [hf] at hfl'
        exact Option.some.inj hfl'
      subst hll
      have hil : i ≠ l := by
        intro hEq
        rw [hEq, hlead] at hr
        simp at hr
      refine Or.inr (Or.inl ⟨hdel, l, hfl', hnc, hag, ?_, ?_⟩)
      · exact (updTask_other s.tasks i l _ (Ne.symm hil)).trans hlead
      · intro j hj
        by_cases hji : j = i
        · rw [hji]
          exact Or.inr (updTask_self s.tasks i _)
        · rcases hrest j hj with hc | hc
          · exact Or.inl ((updTask_other s.tasks i j _ hji).trans hc)
          · exact Or.inr ((updTask_other s.tasks i j _ hji).trans hc)
    · rw [hd] at hdel
      simp at hdel
  | deliver s l h hf hl ih =>
    rcases ih with ⟨_, hfl, _⟩ | ⟨_, l', hfl', hnc, _, _, hrest⟩ | ⟨_, hfl, _⟩
    · rw [hf] at hfl
      simp at hfl
    · have hll : l = l' := by
        rw [hf] at hfl'
        exact Option.some.inj hfl'
      subst hll
      refine Or.inr (Or.inr ⟨rfl, rfl, hnc, l, ?_, ?_⟩)
      · exact updTask_self s.tasks l _
      · intro j hj
        rcases hrest j hj with hc | hc
        · exact Or.inl ((updTask_other s.tasks l j _ hj).trans hc)
        · exact Or.inr (Or.inl ((updTask_other s.tasks l j _ hj).trans hc))
    · rw [hf] at hfl
      simp at hfl
  | resolve s i l t h hi hl ih =>
    rcases ih with ⟨_, _, _, _, htasks⟩ |
        ⟨_, l', _, _, _, hlead, hrest⟩ | ⟨hdel, hfl, hnc, l', hdl, hrest⟩
    · rw [htasks i] at hi
      simp at hi
    · have hil : i ≠ l' := by
        intro hEq
        rw [hEq, hlead] at hi
        simp at hi
      rcases hrest i hil with hc | hc
      · rw [hc] at hi
        simp at hi
      · rw [hc] at hi
        have hll : l' = l := TaskState.joined.inj hi
        rw [← hll, hlead] at hl
        simp at hl
    · have hil : i ≠ l' := by
        intro hEq
        rw [hEq, hdl] at hi
        simp at hi
      have hll : l = l' := by
        rcases hrest i hil with hc | hc | hc
        · rw [hc] at hi
          simp at hi
        · rw [hc] at hi
          exact (TaskState.joined.inj hi).symm
        · rw [hc] at hi
          simp at hi
      have htr : t = r := by
        rw [hll, hdl] at hl
        exact (TaskState.done.inj hl).symm
      refine Or.inr (Or.inr ⟨hdel, hfl, hnc, l', ?_, ?_⟩)
      · exact (updTask_other s.tasks i l' _ (Ne.symm hil)).trans hdl
      · intro j hj
        by_cases hji : j = i
        · rw [hji, htr]
          exact Or.inr (Or.inr (updTask_self s.tasks i _))
        · rcases hrest j hj with hc | hc | hc
          · exact Or.inl ((updTask_other s.tasks i j _ hji).trans hc)
          · exact Or.inr (Or.inl ((updTask_other s.tasks i j _ hji).trans hc))
          · exact Or.inr (Or.inr ((updTask_other s.tasks i j _ hji).trans hc))

/-- C9: any interleaving of `N` concurrent `getToken(forceRefresh=false)`
calls on an agent with no cached token (all calls issued while the exchange
is still in flight) that brings every caller to completion performs exactly
one network exchange, and every caller resolves to the same record `r` — the
one the single exchange returned. -/
theorem singleFlight_dedup {n : Nat} (g0 : GoogleToken) (now iat : Nat)
    (r : TokenData) (hn : 0 < n) (hraw : g0.rawToken = none)
    (s : SFState n) (h : SFReach g0 now iat r s)
    (hdone : ∀ i, ∃ t, s.tasks i = TaskState.done t) :
    s.netCalls = 1 ∧ ∀ i, s.tasks i = TaskState.done r := by
  rcases sfReach_inv g0 now iat r hraw h with ⟨_, _, _, _, htasks⟩ |
      ⟨_, l, _, _, _, hlead, _⟩ | ⟨_, _, hnc, l, hdl, hrest⟩
  · obtain ⟨t, ht⟩ := hdone ⟨0, hn⟩
    rw [htasks ⟨0, hn⟩] at ht
    simp at ht
  · obtain ⟨t, ht⟩ := hdone l
    rw [hlead] at ht
    simp at ht
  · refine ⟨hnc, fun i => ?_⟩
    by_cases hi : i = l
    · rw [hi]
      exact hdl
    · rcases hrest i hi with hc | hc | hc
      · obtain ⟨t, ht⟩ := hdone i
        rw [hc] at ht
        simp at ht
      · obtain ⟨t, ht⟩ := hdone i
        rw [hc] at ht
        simp at ht
      · exact hc

/-- Witness for C9: one caller on a fresh agent with a directly-set key runs
as leader, the response is delivered, and the final state shows one network
call and the caller resolved with the returned record. -/
theorem singleFlight_dedup_witness :
    sfFinal.netCalls = 1 ∧ sfFinal.tasks 0 = TaskState.done sfRec := by
  have h0 : SFReach sfG0 0 0 sfRec (initSF 1 sfG0) := SFReach.init 1
  have h1 : SFReach sfG0 0 0 sfRec
      { agent := sfG0
        inFlight := some 0
        delivered := false
        netCalls := 1
        tasks := updTask (fun _ => .ready) 0 .leader } :=
    SFReach.runLead (initSF 1 sfG0) 0 h0 rfl rfl rfl (by decide) (by decide)
  have h2 : SFReach sfG0 0 0 sfRec sfFinal :=
    SFReach.deliver _ 0 h1 rfl rfl
  have hmain := singleFlight_dedup sfG0 0 0 sfRec (by decide) rfl sfFinal h2
    (fun i => ⟨sfRec, by
      have hi : i = 0 := Subsingleton.elim i 0
      rw [hi]
      rfl⟩)
  exact ⟨hmain.1, hmain.2 0⟩
